import Mathlib

/-!
# Verification of the `github_pr_review` analyzer core

A shallow embedding of `src/github_pr_review/analyzer.py` (class `PRAnalyzer`):
the pure text-extraction functions (work-item references, conventional-commit
types) and the aggregation queries over a list of PR records.

Modelling conventions:
* Python dictionaries produced by `github_client.extract_pr_data` become the
  structure `PRRecord`; keys that may be absent from the dictionary
  (`commit_messages`, `repo`) or whose value may be `None`
  (`author`, `time_to_close_hours`) become `Option` fields.
* Python numbers are embedded in `ℚ` (floats are treated as exact rationals;
  the claims do not depend on rounding), counts in `ℕ`, line counts in `ℤ`.
* Regular-expression scanning (`findall` / `finditer` / `match`) is embedded as
  explicit character-level scanners, one per compiled pattern, documented at
  each definition.  `\w`, `\d`, `[A-Z]` are modelled over ASCII.
* Code that can raise is embedded with `Except` (`extract_work_items_py`).
-/

set_option maxRecDepth 10000

/-- Mirrors the fields of `datetime` that the analyzer observes
(`strftime("%Y-%m")` reads only year and month; the other fields are carried
for fidelity of the record data). -/
structure PyDateTime where
  year : Nat
  month : Nat
  day : Nat
  hour : Nat
  minute : Nat
deriving DecidableEq, Repr

/-- A PR record: the dictionary built by `github_client.extract_pr_data` and
consumed by `PRAnalyzer`.  `commit_messages` and `repo` model optional *keys*
(`none` = key absent); `author` and `time_to_close_hours` model keys whose
value may be Python `None`. -/
structure PRRecord where
  number : Nat
  title : String
  state : String
  created_at : PyDateTime
  merged : Bool
  author : Option String
  description : String
  time_to_close_hours : Option ℚ
  additions : ℤ
  deletions : ℤ
  changed_files : ℤ
  commit_messages : Option (List String)
  repo : Option String
deriving DecidableEq, Repr

/-! ## Character classes (ASCII model of the regex classes) -/

/-- `\w` of the patterns: ASCII letter, digit or underscore. -/
def isWordChar (c : Char) : Bool := c.isAlphanum || c = '_'

/-- `[\w-]` in `GITHUB_ISSUE_URL_PATTERN`. -/
def isWordOrHyphen (c : Char) : Bool := isWordChar c || c = '-'

/-- `[a-zA-Z0-9.-]` in `JIRA_URL_PATTERN`. -/
def isJiraHostChar (c : Char) : Bool := c.isAlphanum || c = '.' || c = '-'

/-! ## Generic scanning loop

`re.finditer` tries a match at every position, left to right; after a
successful (non-empty) match it resumes at the end of the match, otherwise it
advances one character.  Each pattern below supplies `matchAt`, which attempts
a match anchored at the head of the character list and returns the captured
group together with the characters remaining after the whole match.  Every
successful match of the four patterns consumes at least one character, so a
fuel of `l.length` is never exhausted. -/

def reScan (matchAt : List Char → Option (String × List Char)) :
    Nat → List Char → List String
  | 0, _ => []
  | _, [] => []
  | fuel + 1, c :: rest =>
    match matchAt (c :: rest) with
    | some (s, r) => s :: reScan matchAt fuel r
    | none => reScan matchAt fuel rest

/-- Strip a literal from the head of the input, or fail. -/
def dropLit : List Char → List Char → Option (List Char)
  | [], l => some l
  | _ :: _, [] => none
  | a :: lit, c :: l => if c = a then dropLit lit l else none

/-! ## `GITHUB_ISSUE_PATTERN = re.compile(r"#(\d+)")` -/

/-- Anchored attempt for `#(\d+)`: a `#` followed by one or more digits;
the capture is the maximal digit run. -/
def matchIssueRef : List Char → Option (String × List Char)
  | '#' :: rest =>
    let ds := rest.takeWhile Char.isDigit
    if ds.isEmpty then none
    else some (String.mk ds, rest.drop ds.length)
  | _ => none

/-- `GITHUB_ISSUE_PATTERN.findall`. -/
def findIssueRefs (s : String) : List String :=
  reScan matchIssueRef s.toList.length s.toList

/-! ## `GITHUB_ISSUE_URL_PATTERN = re.compile(r"github\.com/[\w-]+/[\w-]+/issues/(\d+)")`

Each `[\w-]+` is followed in the pattern by a literal `/`, and `/` is not in
the class, so the greedy run never backtracks: the maximal class run is the
only viable one.  Likewise `(\d+)` at the end of the pattern is maximal. -/

def matchGithubIssueURL (l : List Char) : Option (String × List Char) := do
  let l ← dropLit "github.com/".toList l
  let r1 := l.takeWhile isWordOrHyphen
  if r1.isEmpty then none else
  let l ← dropLit "/".toList (l.drop r1.length)
  let r2 := l.takeWhile isWordOrHyphen
  if r2.isEmpty then none else
  let l ← dropLit "/issues/".toList (l.drop r2.length)
  let ds := l.takeWhile Char.isDigit
  if ds.isEmpty then none
  else some (String.mk ds, l.drop ds.length)

/-- `GITHUB_ISSUE_URL_PATTERN.findall`. -/
def findGithubIssueURLs (s : String) : List String :=
  reScan matchGithubIssueURL s.toList.length s.toList

/-! ## `JIRA_PATTERN = re.compile(r"([A-Z]+-\d+)")`

`[A-Z]+` is followed by `-` which is not in `[A-Z]`, and `\d+` is final, so
both greedy runs are the maximal class runs. -/

def matchJiraKey (l : List Char) : Option (String × List Char) :=
  let us := l.takeWhile Char.isUpper
  if us.isEmpty then none else
  match l.drop us.length with
  | '-' :: rest =>
    let ds := rest.takeWhile Char.isDigit
    if ds.isEmpty then none
    else some (String.mk (us ++ '-' :: ds), rest.drop ds.length)
  | _ => none

/-- `JIRA_PATTERN.findall`. -/
def findJiraKeys (s : String) : List String :=
  reScan matchJiraKey s.toList.length s.toList

/-! ## `JIRA_URL_PATTERN = re.compile(r"[a-zA-Z0-9.-]+\.atlassian\.net/browse/([A-Z]+-\d+)")`

Here the leading class contains `.`, so it can swallow `.atlassian.net` and
the engine backtracks: the greedy `+` tries the maximal run first and shortens
it one character at a time until the literal `\.atlassian\.net/browse/`
followed by the ticket matches.  `tryJiraHost l n` tries host lengths
`n, n-1, …, 1` in that order (longest first, as the greedy engine does). -/

def jiraTail (l : List Char) : Option (String × List Char) := do
  let l ← dropLit ".atlassian.net/browse/".toList l
  matchJiraKey l

def tryJiraHost (l : List Char) : Nat → Option (String × List Char)
  | 0 => none
  | n + 1 =>
    match jiraTail (l.drop (n + 1)) with
    | some r => some r
    | none => tryJiraHost l n

def matchJiraURL (l : List Char) : Option (String × List Char) :=
  let run := l.takeWhile isJiraHostChar
  tryJiraHost l run.length

/-- `JIRA_URL_PATTERN.findall`. -/
def findJiraURLs (s : String) : List String :=
  reScan matchJiraURL s.toList.length s.toList

/-! ## `COMMIT_TYPE_PATTERN` and alias normalization

`COMMIT_TYPE_PATTERN = re.compile(r'^(feat|fix|docs?|hotfix|chore|refactor|test|ci|perf|style|build|revert)', re.IGNORECASE)`.

The alternation is tried left to right and `docs?` greedily tries `docs`
before `doc`, giving the ordered word list below.  The pattern is anchored
with `^` and compiled *without* `re.MULTILINE`, so it can match only at
position 0 of the subject string — `match` and `finditer` alike. -/

def commitTypeWords : List String :=
  ["feat", "fix", "docs", "doc", "hotfix", "chore", "refactor",
   "test", "ci", "perf", "style", "build", "revert"]

/-- `str.lower()` over ASCII: lower-case each character
(`Char.toLower` maps exactly the range A-Z). -/
def strLower (s : String) : String := String.mk (s.toList.map Char.toLower)

/-- Try each alternation branch in order; a branch `w` matches when the first
`w.length` characters of `s` equal `w` case-insensitively.  Returns the
captured text in its original case (Python's `match.group(1)`). -/
def matchWordList : List String → String → Option String
  | [], _ => none
  | w :: ws, s =>
    if strLower (s.take w.length) = w then some (s.take w.length)
    else matchWordList ws s

/-- `COMMIT_TYPE_PATTERN.match(s)`, returning `group(1)`. -/
def matchCommitType (s : String) : Option String :=
  matchWordList commitTypeWords s

/-- `COMMIT_TYPE_ALIASES = {'doc': 'docs', 'hotfix': 'fix'}`. -/
def COMMIT_TYPE_ALIASES : List (String × String) :=
  [("doc", "docs"), ("hotfix", "fix")]

/-- `PRAnalyzer._normalize_commit_type`: lower-case, then look up the alias
table with the token itself as default. -/
def normalizeCommitType (t : String) : String :=
  ((COMMIT_TYPE_ALIASES.lookup (strLower t)).getD (strLower t))

/-- The canonical commit-type vocabulary of the data model. -/
def canonicalCommitTypes : List String :=
  ["feat", "fix", "docs", "chore", "refactor", "test", "ci", "perf",
   "style", "build", "revert"]

/-! ## Extractor -/

/-- Result of `PRAnalyzer.extract_work_items`. -/
structure WorkItems where
  github_issues : List String
  jira_tickets : List String
deriving DecidableEq, Repr

/-- Python's string comparison: lexicographic on the code-point sequences.
This agrees with the library order on `String`
(`String.le_iff_toList_le`) but, unlike it, evaluates by kernel reduction. -/
def strLeKey (a b : String) : Prop := a.toList ≤ b.toList

instance : DecidableRel strLeKey := fun a b => by
  unfold strLeKey; infer_instance

instance : IsTotal String strLeKey := ⟨fun a b => le_total a.toList b.toList⟩

instance : IsTrans String strLeKey := ⟨fun _ _ _ => le_trans⟩

/-- `sorted(list(set(a) | set(b)))`: union with set semantics, then sorted
ascending by string order. -/
def sortedUnion (a b : List String) : List String :=
  List.insertionSort strLeKey (a ++ b).dedup

/-- `PRAnalyzer.extract_work_items(description)` for a string argument:
union the sigil/token matches with the URL matches of each family,
deduplicate, sort. -/
def extract_work_items (description : String) : WorkItems where
  github_issues := sortedUnion (findIssueRefs description) (findGithubIssueURLs description)
  jira_tickets := sortedUnion (findJiraKeys description) (findJiraURLs description)

/-- `PRAnalyzer.extract_work_items` on a Python value that may be `None`:
`re.findall(pattern, None)` raises `TypeError`, so the `None` case is an
error; a string argument never raises. -/
def extract_work_items_py : Option String → Except String WorkItems
  | none => .error "TypeError: expected string or bytes-like object"
  | some s => .ok (extract_work_items s)

/-- `PRAnalyzer.extract_conventional_commit_types(pr)`:
* the title contributes via `COMMIT_TYPE_PATTERN.match` (anchored at start);
* the description is scanned with `finditer`, but since the pattern is
  `^`-anchored and compiled without `re.MULTILINE` the iterator yields at most
  one match, at position 0 — embedded as the same anchored attempt;
* each commit message (when the `commit_messages` key is present) contributes
  via the anchored `match`. -/
def extract_conventional_commit_types (pr : PRRecord) : List String :=
  ((matchCommitType pr.title).toList.map normalizeCommitType)
  ++ ((matchCommitType pr.description).toList.map normalizeCommitType)
  ++ (match pr.commit_messages with
      | some msgs => msgs.filterMap (fun m => (matchCommitType m).map normalizeCommitType)
      | none => [])

/-! ## Dictionary helpers

`defaultdict` accumulation over a scan visits keys in first-occurrence order;
the count of a key is the number of scan entries carrying it.  `firstDedup`
gives the keys in first-occurrence order, `countsByKey` the resulting
key-count pairs. -/

def firstDedupAux (seen : List String) : List String → List String
  | [] => []
  | k :: rest =>
    if k ∈ seen then firstDedupAux seen rest
    else k :: firstDedupAux (k :: seen) rest

/-- Distinct elements of `l` in order of first occurrence (Python dict key
order under repeated insertion). -/
def firstDedup (l : List String) : List String := firstDedupAux [] l

/-- `defaultdict(int)` counting over a list of keys, as an association list in
first-occurrence key order. -/
def countsByKey (ks : List String) : List (String × Nat) :=
  (firstDedup ks).map (fun k => (k, ks.count k))

/-- `sorted(d.items())`: ascending by key (keys are distinct, so tuple
comparison reduces to key comparison). -/
def sortPairsAsc {α : Type} (l : List (String × α)) : List (String × α) :=
  List.insertionSort (fun a b => strLeKey a.1 b.1) l

instance {α : Type} : IsTotal (String × α) (fun a b => strLeKey a.1 b.1) :=
  ⟨fun a b => le_total a.1.toList b.1.toList⟩

instance {α : Type} : IsTrans (String × α) (fun a b => strLeKey a.1 b.1) :=
  ⟨fun _ _ _ => le_trans⟩

/-- `sorted(d.items(), key=lambda x: x[1], reverse=True)`: stable sort,
descending by count, ties keeping first-occurrence order. -/
def sortPairsByCountDesc (l : List (String × Nat)) : List (String × Nat) :=
  List.insertionSort (fun a b => b.2 ≤ a.2) l

/-! ## Aggregator: counts and time statistics -/

/-- `PRAnalyzer.get_total_prs`. -/
def get_total_prs (prs : List PRRecord) : Nat := prs.length

/-- `PRAnalyzer.get_merged_prs_count`. -/
def get_merged_prs_count (prs : List PRRecord) : Nat :=
  (prs.filter (fun pr => pr.merged)).length

/-- `PRAnalyzer.get_closed_prs_count`. -/
def get_closed_prs_count (prs : List PRRecord) : Nat :=
  (prs.filter (fun pr => pr.state = "closed" ∧ ¬ pr.merged)).length

/-- `PRAnalyzer.get_open_prs_count`. -/
def get_open_prs_count (prs : List PRRecord) : Nat :=
  (prs.filter (fun pr => pr.state = "open")).length

/-- The list comprehension
`[pr["time_to_close_hours"] for pr in self.pr_data if pr["time_to_close_hours"]]`:
the filter is Python *truthiness*, so it keeps exactly the values that are
neither `None` nor `0.0`. -/
def truthyTimes (prs : List PRRecord) : List ℚ :=
  prs.filterMap (fun pr =>
    match pr.time_to_close_hours with
    | some t => if t ≠ 0 then some t else none
    | none => none)

/-- `statistics.mean`: sum divided by length. -/
def meanList (l : List ℚ) : ℚ := l.sum / l.length

/-- `statistics.median`: sort ascending; middle element for odd length, mean
of the two middle elements for even length. -/
def medianList (l : List ℚ) : ℚ :=
  let s := List.insertionSort (· ≤ ·) l
  if l.length % 2 = 1 then s.getD (l.length / 2) 0
  else (s.getD (l.length / 2 - 1) 0 + s.getD (l.length / 2) 0) / 2

/-- `PRAnalyzer.get_average_time_to_close`. -/
def get_average_time_to_close (prs : List PRRecord) : Option ℚ :=
  let times := truthyTimes prs
  if times = [] then none else some (meanList times)

/-- `PRAnalyzer.get_median_time_to_close`. -/
def get_median_time_to_close (prs : List PRRecord) : Option ℚ :=
  let times := truthyTimes prs
  if times = [] then none else some (medianList times)

/-! ## Aggregator: groupings -/

/-- `created_at.strftime("%Y-%m")`: zero-padded four-digit year (datetime
years lie in 1..9999), hyphen, zero-padded two-digit month. -/
def pad2 (n : Nat) : String := if n < 10 then "0" ++ toString n else toString n

def pad4 (n : Nat) : String :=
  if n < 10 then "000" ++ toString n
  else if n < 100 then "00" ++ toString n
  else if n < 1000 then "0" ++ toString n
  else toString n

def monthKey (pr : PRRecord) : String :=
  pad4 pr.created_at.year ++ "-" ++ pad2 pr.created_at.month

/-- `PRAnalyzer.get_prs_per_month`: count per month key, sorted ascending. -/
def get_prs_per_month (prs : List PRRecord) : List (String × Nat) :=
  sortPairsAsc (countsByKey (prs.map monthKey))

/-- `PRAnalyzer.get_prs_by_repo`: records whose dictionary has a `repo` key,
counted per repo, sorted descending by count. -/
def get_prs_by_repo (prs : List PRRecord) : List (String × Nat) :=
  sortPairsByCountDesc (countsByKey (prs.filterMap (fun pr => pr.repo)))

/-- `PRAnalyzer.get_prs_by_author`: records with a *truthy* author value
(`if pr["author"]`: excludes `None` and the empty string), counted per
author, sorted descending by count. -/
def get_prs_by_author (prs : List PRRecord) : List (String × Nat) :=
  sortPairsByCountDesc (countsByKey (prs.filterMap (fun pr =>
    match pr.author with
    | some a => if a = "" then none else some a
    | none => none)))

/-! ## Aggregator: conventional-commit analysis -/

/-- Result of `PRAnalyzer.get_conventional_commits_analysis`. -/
structure ConvCommitsAnalysis where
  commit_types : List (String × Nat)
  prs_with_conventional_commits : Nat
  percentage_with_conventional : ℚ
  total_typed_commits : Nat
  feat_count : Nat
  fix_count : Nat
  feat_fix_ratio : Option ℚ
deriving DecidableEq, Repr

/-- `PRAnalyzer.get_conventional_commits_analysis`.  The per-PR loop tallies
every extracted type into `commit_type_counts` (scan order = concatenation of
the per-record extractions) and counts the records whose extraction is
non-empty. -/
def get_conventional_commits_analysis (prs : List PRRecord) : ConvCommitsAnalysis :=
  let counts := countsByKey (prs.flatMap extract_conventional_commit_types)
  let prsWith := (prs.filter (fun pr => extract_conventional_commit_types pr ≠ [])).length
  let featCount := (counts.lookup "feat").getD 0
  let fixCount := (counts.lookup "fix").getD 0
  { commit_types := sortPairsByCountDesc counts
    prs_with_conventional_commits := prsWith
    percentage_with_conventional :=
      if prs = [] then 0 else (prsWith : ℚ) / (prs.length : ℚ) * 100
    total_typed_commits := (counts.map (fun kc => kc.2)).sum
    feat_count := featCount
    fix_count := fixCount
    feat_fix_ratio :=
      if fixCount > 0 then some ((featCount : ℚ) / (fixCount : ℚ)) else none }

/-! ## Aggregator: work items and code changes -/

/-- Result of `PRAnalyzer.get_work_item_analysis`. -/
structure WorkItemAnalysis where
  total_github_issues : Nat
  total_jira_tickets : Nat
  prs_with_work_items : Nat
  prs_without_work_items : Nat
  percentage_with_work_items : ℚ
deriving DecidableEq, Repr

/-- `PRAnalyzer.get_work_item_analysis`: union (set semantics) of each
family's identifiers across all descriptions; a record has work items when
either family is non-empty for it. -/
def get_work_item_analysis (prs : List PRRecord) : WorkItemAnalysis :=
  let prsWith := (prs.filter (fun pr =>
    (extract_work_items pr.description).github_issues ≠ [] ∨
    (extract_work_items pr.description).jira_tickets ≠ [])).length
  { total_github_issues :=
      ((prs.flatMap (fun pr => (extract_work_items pr.description).github_issues)).dedup).length
    total_jira_tickets :=
      ((prs.flatMap (fun pr => (extract_work_items pr.description).jira_tickets)).dedup).length
    prs_with_work_items := prsWith
    prs_without_work_items := prs.length - prsWith
    percentage_with_work_items :=
      if prs = [] then 0 else (prsWith : ℚ) / (prs.length : ℚ) * 100 }

/-- Result of `PRAnalyzer.get_code_change_stats`. -/
structure CodeChangeStats where
  total_additions : ℤ
  total_deletions : ℤ
  total_files_changed : ℤ
  avg_additions_per_pr : ℚ
  avg_deletions_per_pr : ℚ
  avg_files_per_pr : ℚ
deriving DecidableEq, Repr

/-- `PRAnalyzer.get_code_change_stats`. -/
def get_code_change_stats (prs : List PRRecord) : CodeChangeStats :=
  let ta := (prs.map (fun pr => pr.additions)).sum
  let td := (prs.map (fun pr => pr.deletions)).sum
  let tf := (prs.map (fun pr => pr.changed_files)).sum
  { total_additions := ta
    total_deletions := td
    total_files_changed := tf
    avg_additions_per_pr := if prs = [] then 0 else (ta : ℚ) / (prs.length : ℚ)
    avg_deletions_per_pr := if prs = [] then 0 else (td : ℚ) / (prs.length : ℚ)
    avg_files_per_pr := if prs = [] then 0 else (tf : ℚ) / (prs.length : ℚ) }

/-! ## Aggregator: business insights -/

structure CostSavings where
  bug_fixes : ℚ
  performance_improvements : ℚ
  test_additions : ℚ
  total : ℚ
  currency : String
deriving DecidableEq, Repr

structure VelocityMetrics where
  avg_time_to_close_hours : Option ℚ
  velocity_score : String
  total_prs : Nat
  merged_rate : ℚ
deriving DecidableEq, Repr

structure ProductivityMetrics where
  avg_lines_per_pr : ℚ
  total_code_changes : ℤ
deriving DecidableEq, Repr

structure BusinessInsights where
  estimated_cost_savings : CostSavings
  velocity_metrics : VelocityMetrics
  productivity_metrics : ProductivityMetrics
deriving DecidableEq, Repr

/-- `avg_hourly_rate = 75` (USD). -/
def avg_hourly_rate : ℚ := 75

/-- Truthiness of the optional mean in
`"high" if avg_time and avg_time < 48 else ...`: `None` and `0.0` are falsy,
and the comparison is only evaluated when the left operand is truthy. -/
def truthyLt (x : Option ℚ) (bound : ℚ) : Bool :=
  match x with
  | none => false
  | some v => v ≠ 0 && v < bound

/-- `PRAnalyzer.get_business_insights`. -/
def get_business_insights (prs : List PRRecord) : BusinessInsights :=
  let conv := get_conventional_commits_analysis prs
  let codeStats := get_code_change_stats prs
  let fixCount := conv.fix_count
  let bugSavings : ℚ := (fixCount : ℚ) * 4 * avg_hourly_rate
  let perfCount := (conv.commit_types.lookup "perf").getD 0
  let perfSavings : ℚ := (perfCount : ℚ) * 8 * avg_hourly_rate
  let testCount := (conv.commit_types.lookup "test").getD 0
  let testSavings : ℚ := (testCount : ℚ) * 2 * avg_hourly_rate
  let avgTime := get_average_time_to_close prs
  { estimated_cost_savings :=
      { bug_fixes := bugSavings
        performance_improvements := perfSavings
        test_additions := testSavings
        total := bugSavings + perfSavings + testSavings
        currency := "USD" }
    velocity_metrics :=
      { avg_time_to_close_hours := avgTime
        velocity_score :=
          if truthyLt avgTime 48 then "high"
          else if truthyLt avgTime 168 then "medium"
          else "low"
        total_prs := prs.length
        merged_rate :=
          if prs = [] then 0
          else (get_merged_prs_count prs : ℚ) / (prs.length : ℚ) * 100 }
    productivity_metrics :=
      { avg_lines_per_pr := codeStats.avg_additions_per_pr + codeStats.avg_deletions_per_pr
        total_code_changes := codeStats.total_additions + codeStats.total_deletions } }

/-! ## Aggregator: monthly breakdown -/

/-- One month's entry of `PRAnalyzer.get_monthly_breakdown`. -/
structure MonthStats where
  total_prs : Nat
  merged : Nat
  closed_not_merged : Nat
  still_open : Nat
  avg_time_to_close_hours : Option ℚ
  work_items : WorkItemAnalysis
  code_changes : CodeChangeStats
  conventional_commits : ConvCommitsAnalysis
  top_authors : List (String × Nat)
deriving DecidableEq, Repr

/-- The sub-aggregator applied to one month's partition. -/
def monthStats (prs : List PRRecord) : MonthStats where
  total_prs := prs.length
  merged := get_merged_prs_count prs
  closed_not_merged := get_closed_prs_count prs
  still_open := get_open_prs_count prs
  avg_time_to_close_hours := get_average_time_to_close prs
  work_items := get_work_item_analysis prs
  code_changes := get_code_change_stats prs
  conventional_commits := get_conventional_commits_analysis prs
  top_authors := (get_prs_by_author prs).take 5

/-- The `defaultdict(list)` grouping of `get_monthly_breakdown`: keys in
first-occurrence order, each bucket holding its records in scan order
(equivalently, the sub-list of records with that month key). -/
def groupByMonth (prs : List PRRecord) : List (String × List PRRecord) :=
  (firstDedup (prs.map monthKey)).map
    (fun k => (k, prs.filter (fun pr => monthKey pr = k)))

/-- `PRAnalyzer.get_monthly_breakdown`: group by creation month, sort
ascending by month key, and apply the sub-aggregator to each bucket. -/
def get_monthly_breakdown (prs : List PRRecord) : List (String × MonthStats) :=
  (sortPairsAsc (groupByMonth prs)).map (fun kg => (kg.1, monthStats kg.2))

/-! ## Concrete example records -/

/-- A baseline record; examples override individual fields. -/
def mkPR : PRRecord where
  number := 0
  title := ""
  state := "open"
  created_at := ⟨2024, 1, 1, 0, 0⟩
  merged := false
  author := none
  description := ""
  time_to_close_hours := none
  additions := 0
  deletions := 0
  changed_files := 0
  commit_messages := none
  repo := none

/-- A record whose description mentions a commit type mid-sentence only. -/
def prMidFix : PRRecord := { mkPR with description := "this is a fix: for Y" }

/-- A closed record whose `time_to_close_hours` is present and equals `0.0`. -/
def prZeroClose : PRRecord :=
  { mkPR with state := "closed", time_to_close_hours := some 0 }

/-- A title that merely begins with the word `test`, with no `type: subject`
structure. -/
def prTesting : PRRecord := { mkPR with title := "testing the waters" }

/-- A title that merely begins with the word `feat`. -/
def prFeature : PRRecord := { mkPR with title := "feature branch cleanup" }

/-- A title using the `hotfix` alias. -/
def prHotfix : PRRecord := { mkPR with title := "hotfix: urgent" }

/-- A merged (hence closed) record. -/
def prMerged : PRRecord :=
  { mkPR with state := "closed", merged := true, time_to_close_hours := some 28 }

/-- An open record created in another month. -/
def prOpenMar : PRRecord := { mkPR with created_at := ⟨2024, 3, 1, 0, 0⟩ }

/-! ## Helper lemmas on the word-list matcher -/

theorem matchWordList_eq_some {L : List String} {s t : String}
    (h : matchWordList L s = some t) :
    ∃ w ∈ L, t = s.take w.length ∧ strLower t = w := by
  induction L with
  | nil => simp [matchWordList] at h
  | cons w ws ih =>
    by_cases hc : strLower (s.take w.length) = w
    · rw [matchWordList, if_pos hc] at h
      exact ⟨w, by simp, by injection h with h; rw [← h], by
        injection h with h; rw [← h]; exact hc⟩
    · rw [matchWordList, if_neg hc] at h
      obtain ⟨w', hw', ht⟩ := ih h
      exact ⟨w', by simp [hw'], ht⟩

theorem matchWordList_eq_none {L : List String} {s : String}
    (h : ∀ w ∈ L, strLower (s.take w.length) ≠ w) :
    matchWordList L s = none := by
  induction L with
  | nil => rfl
  | cons w ws ih =>
    rw [matchWordList, if_neg (h w (by simp))]
    exact ih (fun w' hw' => h w' (by simp [hw']))

theorem matchWordList_isSome {L : List String} {s w : String}
    (hw : w ∈ L) (hpre : strLower (s.take w.length) = w) :
    ∃ t, matchWordList L s = some t := by
  induction L with
  | nil => simp at hw
  | cons w' ws ih =>
    by_cases hc : strLower (s.take w'.length) = w'
    · exact ⟨s.take w'.length, by rw [matchWordList, if_pos hc]⟩
    · rcases List.mem_cons.mp hw with h | h
      · exact absurd (h ▸ hpre) hc
      · obtain ⟨t, ht⟩ := ih h
        exact ⟨t, by rw [matchWordList, if_neg hc]; exact ht⟩

/-- Every normalized token of a successful anchored match lies in the
canonical vocabulary. -/
theorem normalize_matched_mem {s t : String} (h : matchCommitType s = some t) :
    normalizeCommitType t ∈ canonicalCommitTypes := by
  obtain ⟨w, hwmem, -, hlow⟩ := matchWordList_eq_some h
  have hnt : normalizeCommitType t = (COMMIT_TYPE_ALIASES.lookup w).getD w := by
    rw [normalizeCommitType, hlow]
  rw [hnt]
  fin_cases hwmem <;> decide

/-- Any token of `extract_conventional_commit_types` is the normalization of
some anchored match. -/
theorem mem_extract_types {pr : PRRecord} {tok : String}
    (h : tok ∈ extract_conventional_commit_types pr) :
    ∃ s t, matchCommitType s = some t ∧ tok = normalizeCommitType t := by
  rw [extract_conventional_commit_types] at h
  rcases List.mem_append.mp h with h | h
  · rcases List.mem_append.mp h with h | h
    · rcases List.mem_map.mp h with ⟨t, ht, rfl⟩
      exact ⟨pr.title, t, by simpa using ht, rfl⟩
    · rcases List.mem_map.mp h with ⟨t, ht, rfl⟩
      exact ⟨pr.description, t, by simpa using ht, rfl⟩
  · cases hm : pr.commit_messages with
    | none => rw [hm] at h; simp at h
    | some msgs =>
      rw [hm] at h
      rcases List.mem_filterMap.mp h with ⟨m, -, hf⟩
      rcases Option.map_eq_some'.mp hf with ⟨t, ht, rfl⟩
      exact ⟨m, t, ht, rfl⟩

/-! ## Helper lemmas on the time filter -/

theorem truthyTimes_eq_nil_iff (prs : List PRRecord) :
    truthyTimes prs = [] ↔ ∀ pr ∈ prs,
      pr.time_to_close_hours = none ∨ pr.time_to_close_hours = some 0 := by
  rw [truthyTimes, List.filterMap_eq_nil_iff]
  constructor
  · intro h pr hpr
    have := h pr hpr
    cases hto : pr.time_to_close_hours with
    | none => exact Or.inl rfl
    | some t =>
      rw [hto] at this
      by_cases ht : t = 0
      · exact Or.inr (by rw [ht])
      · simp [ht] at this
  · intro h pr hpr
    rcases h pr hpr with ht | ht <;> simp [ht]

theorem mem_truthyTimes {prs : List PRRecord} {t : ℚ} (h : t ∈ truthyTimes prs) :
    ∃ pr ∈ prs, pr.time_to_close_hours = some t ∧ t ≠ 0 := by
  rcases List.mem_filterMap.mp h with ⟨pr, hpr, hf⟩
  cases hto : pr.time_to_close_hours with
  | none => rw [hto] at hf; simp at hf
  | some u =>
    rw [hto] at hf
    by_cases hu : u = 0
    · simp [hu] at hf
    · simp [hu] at hf
      exact ⟨pr, hpr, by rw [hto, hf], hf ▸ hu⟩

/-! ## Helper lemmas on dictionary accumulation -/

theorem mem_firstDedupAux (seen : List String) (l : List String) (a : String) :
    a ∈ firstDedupAux seen l ↔ a ∈ l ∧ a ∉ seen := by
  induction l generalizing seen with
  | nil => simp [firstDedupAux]
  | cons k rest ih =>
    by_cases hk : k ∈ seen
    · rw [firstDedupAux, if_pos hk, ih]
      constructor
      · exact fun ⟨h1, h2⟩ => ⟨List.mem_cons_of_mem _ h1, h2⟩
      · rintro ⟨h1, h2⟩
        rcases List.mem_cons.mp h1 with rfl | h1
        · exact absurd hk h2
        · exact ⟨h1, h2⟩
    · rw [firstDedupAux, if_neg hk]
      by_cases hak : a = k
      · subst hak
        simp [hk]
      · simp only [List.mem_cons, hak, false_or]
        rw [ih]
        simp [hak]

theorem nodup_firstDedupAux (seen : List String) (l : List String) :
    (firstDedupAux seen l).Nodup := by
  induction l generalizing seen with
  | nil => exact List.nodup_nil
  | cons k rest ih =>
    by_cases hk : k ∈ seen
    · rw [firstDedupAux, if_pos hk]; exact ih seen
    · rw [firstDedupAux, if_neg hk]
      refine List.nodup_cons.mpr ⟨?_, ih (k :: seen)⟩
      rw [mem_firstDedupAux]
      rintro ⟨-, habs⟩
      exact habs (by simp)

theorem mem_firstDedup (l : List String) (a : String) :
    a ∈ firstDedup l ↔ a ∈ l := by
  rw [firstDedup, mem_firstDedupAux]; simp

theorem nodup_firstDedup (l : List String) : (firstDedup l).Nodup :=
  nodup_firstDedupAux [] l

/-- Splitting a length along a decidable predicate. -/
theorem length_filter_split {α : Type} (p : α → Prop) [DecidablePred p] (l : List α) :
    (l.filter (fun a => p a)).length + (l.filter (fun a => ¬ p a)).length = l.length := by
  induction l with
  | nil => rfl
  | cons a l ih =>
    by_cases hp : p a <;>
      simp [List.filter_cons, hp, decide_not] at ih ⊢ <;>
      omega

set_option maxHeartbeats 1000000 in
/-- Summing the sizes of the per-key partitions over a duplicate-free covering
key list gives the total size. -/
theorem sum_filter_len (ks : List String) (prs : List PRRecord)
    (hnd : ks.Nodup) (hcov : ∀ pr ∈ prs, monthKey pr ∈ ks) :
    ((ks.map (fun k => (prs.filter (fun pr => monthKey pr = k)).length)).sum)
      = prs.length := by
  induction ks generalizing prs with
  | nil =>
    have : prs = [] :=
      List.eq_nil_iff_forall_not_mem.mpr (fun pr hpr => by simpa using hcov pr hpr)
    simp [this]
  | cons k ks ih =>
    have hknotin : k ∉ ks := (List.nodup_cons.mp hnd).1
    have hrest :
        (ks.map (fun k' => (prs.filter (fun pr => monthKey pr = k')).length)).sum
          = (ks.map (fun k' =>
              (((prs.filter (fun pr => ¬ monthKey pr = k)).filter
                (fun pr => monthKey pr = k')).length))).sum := by
      refine congrArg List.sum (List.map_congr_left ?_)
      intro k' hk'
      have hkk : k' ≠ k := fun h => hknotin (h ▸ hk')
      rw [List.filter_filter]
      refine congrArg List.length (List.filter_congr ?_)
      intro pr _
      by_cases hpk : monthKey pr = k'
      · simp [hpk, hkk]
      · simp [hpk]
    have hcov' : ∀ pr ∈ prs.filter (fun pr => ¬ monthKey pr = k), monthKey pr ∈ ks := by
      intro pr hpr
      rcases List.mem_filter.mp hpr with ⟨hmem, hne⟩
      rcases List.mem_cons.mp (hcov pr hmem) with h | h
      · simp [h] at hne
      · exact h
    have := ih (prs.filter (fun pr => ¬ monthKey pr = k)) (List.nodup_cons.mp hnd).2 hcov'
    calc ((k :: ks).map (fun k' => (prs.filter (fun pr => monthKey pr = k')).length)).sum
        = (prs.filter (fun pr => monthKey pr = k)).length
          + (ks.map (fun k' => (prs.filter (fun pr => monthKey pr = k')).length)).sum := by
          simp
      _ = (prs.filter (fun pr => monthKey pr = k)).length
          + (prs.filter (fun pr => ¬ monthKey pr = k)).length := by rw [hrest, this]
      _ = prs.length := length_filter_split (fun pr => monthKey pr = k) prs


/-! ## Helper lemmas used by several claims -/

/-- The three state counters partition a collection that satisfies the data
model's state invariants. -/
theorem counts_partition (prs : List PRRecord)
    (hstate : ∀ pr ∈ prs, pr.state = "open" ∨ pr.state = "closed")
    (hmerged : ∀ pr ∈ prs, pr.merged = true → pr.state = "closed") :
    get_merged_prs_count prs + get_closed_prs_count prs + get_open_prs_count prs
      = get_total_prs prs := by
  induction prs with
  | nil => rfl
  | cons pr rest ih =>
    have hs := hstate pr (by simp)
    have hm := hmerged pr (by simp)
    have ihr := ih (fun q hq => hstate q (by simp [hq]))
      (fun q hq => hmerged q (by simp [hq]))
    simp only [get_merged_prs_count, get_closed_prs_count, get_open_prs_count,
      get_total_prs, List.filter_cons, List.length_cons] at ihr ⊢
    cases hmb : pr.merged with
    | true =>
      have hcl := hm hmb
      have hno : pr.state ≠ "open" := by rw [hcl]; decide
      simp [hmb, hcl, hno] at ihr ⊢
      omega
    | false =>
      rcases hs with hopen | hclosed
      · have hnc : pr.state ≠ "closed" := by rw [hopen]; decide
        simp [hmb, hopen, hnc] at ihr ⊢
        omega
      · have hno : pr.state ≠ "open" := by rw [hclosed]; decide
        simp [hmb, hclosed, hno] at ihr ⊢
        omega

/-- Membership in a sorted set union. -/
theorem mem_sortedUnion (a b : List String) (s : String) :
    s ∈ sortedUnion a b ↔ s ∈ a ∨ s ∈ b := by
  rw [sortedUnion, List.mem_insertionSort, List.mem_dedup, List.mem_append]

/-- A sorted set union has no duplicates. -/
theorem nodup_sortedUnion (a b : List String) : (sortedUnion a b).Nodup :=
  (List.perm_insertionSort _ _).nodup_iff.mpr (List.nodup_dedup _)

/-- A sorted set union is sorted ascending by string order. -/
theorem sorted_sortedUnion (a b : List String) :
    List.Sorted (· ≤ ·) (sortedUnion a b) :=
  (List.sorted_insertionSort strLeKey _).imp
    (fun h => String.le_iff_toList_le.mpr h)

/-! ## Claims -/

/-- Claim C1, counterexample: a record whose description contains
"this is a fix: for Y" mid-sentence produces no "fix" token at all —
`COMMIT_TYPE_PATTERN` is `^`-anchored and compiled without `re.MULTILINE`, so
`finditer` over the description cannot match mid-text, contradicting the
claim that every occurrence anywhere in the description counts. -/
theorem C1_counterexample :
    "fix" ∉ extract_conventional_commit_types prMidFix ∧
    extract_conventional_commit_types prMidFix = [] := by decide

/-- Claim C1, amended: in the title, in the description and in each commit
message only a match anchored at the very start of that field counts.  In
particular, whenever no commit-type word is an anchored case-insensitive
prefix of the description, the description contributes no token (even when a
type word such as "fix:" occurs mid-sentence). -/
theorem C1_description_anchored (pr : PRRecord)
    (hdesc : ∀ w ∈ commitTypeWords, strLower (pr.description.take w.length) ≠ w) :
    extract_conventional_commit_types pr =
      ((matchCommitType pr.title).toList.map normalizeCommitType)
      ++ ((pr.commit_messages.getD []).filterMap
            (fun m => (matchCommitType m).map normalizeCommitType)) := by
  have hnone : matchCommitType pr.description = none := matchWordList_eq_none hdesc
  rw [extract_conventional_commit_types, hnone]
  cases pr.commit_messages <;> simp

/-- Witness for `C1_description_anchored` at the mid-sentence record. -/
theorem C1_description_anchored_witness :
    (∀ w ∈ commitTypeWords, strLower (prMidFix.description.take w.length) ≠ w) ∧
    extract_conventional_commit_types prMidFix =
      ((matchCommitType prMidFix.title).toList.map normalizeCommitType)
      ++ ((prMidFix.commit_messages.getD []).filterMap
            (fun m => (matchCommitType m).map normalizeCommitType)) :=
  ⟨by decide, C1_description_anchored prMidFix (by decide)⟩

/-- Claim C2, counterexample: a record whose `time_to_close_hours` is present
and equal to `0.0` is dropped by the truthiness filter, so both statistics
return `None` although a record with the field present exists — contradicting
"mean/median over exactly those records in which the field is present
(including 0.0)". -/
theorem C2_counterexample :
    prZeroClose.time_to_close_hours = some 0 ∧
    get_average_time_to_close [prZeroClose] = none ∧
    get_median_time_to_close [prZeroClose] = none := by decide

/-- Claim C2, amended: mean and median are computed over exactly those
records whose `time_to_close_hours` is present *and non-zero* (Python
truthiness), and both return `None` precisely when every record's value is
absent or zero — never zero and never an exception. -/
theorem C2_time_statistics (prs : List PRRecord) :
    (get_average_time_to_close prs = none ↔ ∀ pr ∈ prs,
        pr.time_to_close_hours = none ∨ pr.time_to_close_hours = some 0) ∧
    (get_median_time_to_close prs = none ↔ ∀ pr ∈ prs,
        pr.time_to_close_hours = none ∨ pr.time_to_close_hours = some 0) ∧
    get_average_time_to_close prs =
      (if truthyTimes prs = [] then none else some (meanList (truthyTimes prs))) ∧
    get_median_time_to_close prs =
      (if truthyTimes prs = [] then none else some (medianList (truthyTimes prs))) := by
  rw [← truthyTimes_eq_nil_iff]
  by_cases hnil : truthyTimes prs = [] <;>
    simp [get_average_time_to_close, get_median_time_to_close, hnil]

/-- Witness for `C2_time_statistics` at a concrete one-record collection. -/
theorem C2_time_statistics_witness :
    get_median_time_to_close [prZeroClose] = none :=
  (C2_time_statistics [prZeroClose]).2.1.mpr (by decide)

/-- Claim C3, counterexample: `extract_work_items` applied to `None` raises
(`re.findall(pattern, None)` is a `TypeError`); it does not return empty
sequences. -/
theorem C3_counterexample :
    extract_work_items_py none =
      Except.error "TypeError: expected string or bytes-like object" ∧
    extract_work_items_py none ≠ Except.ok ⟨[], []⟩ :=
  ⟨rfl, fun h => Except.noConfusion h⟩

/-- Claim C3, amended: `extract_work_items` returns empty sequences for empty
text and never raises on string input, but raises `TypeError` on `None`;
the aggregation queries treat an absent `commit_messages` key, an absent
`repo` key and a `None` author as empty/excluded rather than raising. -/
theorem C3_graceful_absence (pr : PRRecord) (hm : pr.commit_messages = none)
    (ha : pr.author = none) (hr : pr.repo = none) :
    extract_work_items "" = ⟨[], []⟩ ∧
    extract_work_items_py none =
      Except.error "TypeError: expected string or bytes-like object" ∧
    (∀ s : String, extract_work_items_py (some s) = Except.ok (extract_work_items s)) ∧
    extract_conventional_commit_types pr =
      ((matchCommitType pr.title).toList.map normalizeCommitType)
      ++ ((matchCommitType pr.description).toList.map normalizeCommitType) ∧
    get_prs_by_author [pr] = [] ∧
    get_prs_by_repo [pr] = [] := by
  refine ⟨by decide, rfl, fun s => rfl, ?_, ?_, ?_⟩
  · rw [extract_conventional_commit_types, hm]
    simp
  · simp [get_prs_by_author, ha, countsByKey, firstDedup, firstDedupAux, sortPairsByCountDesc]
  · simp [get_prs_by_repo, hr, countsByKey, firstDedup, firstDedupAux, sortPairsByCountDesc]

/-- Witness for `C3_graceful_absence` at the baseline record, whose optional
fields are all absent. -/
theorem C3_graceful_absence_witness :
    mkPR.commit_messages = none ∧ mkPR.author = none ∧ mkPR.repo = none ∧
    (extract_conventional_commit_types mkPR =
      ((matchCommitType mkPR.title).toList.map normalizeCommitType)
      ++ ((matchCommitType mkPR.description).toList.map normalizeCommitType)) ∧
    get_prs_by_author [mkPR] = [] ∧
    get_prs_by_repo [mkPR] = [] := by
  have h := C3_graceful_absence mkPR rfl rfl rfl
  exact ⟨rfl, rfl, rfl, h.2.2.2.1, h.2.2.2.2.1, h.2.2.2.2.2⟩

/-- Claim C4: for every non-empty collection whose records are each "open" or
"closed" with merged records closed, the merged, closed-not-merged and open
counts sum to the total count. -/
theorem C4_count_partition (prs : List PRRecord) (_hne : prs ≠ [])
    (hstate : ∀ pr ∈ prs, pr.state = "open" ∨ pr.state = "closed")
    (hmerged : ∀ pr ∈ prs, pr.merged = true → pr.state = "closed") :
    get_merged_prs_count prs + get_closed_prs_count prs + get_open_prs_count prs
      = get_total_prs prs :=
  counts_partition prs hstate hmerged

/-- Witness for `C4_count_partition` at a concrete two-record collection. -/
theorem C4_count_partition_witness :
    ([prMerged, prOpenMar] ≠ ([] : List PRRecord)) ∧
    get_merged_prs_count [prMerged, prOpenMar] + get_closed_prs_count [prMerged, prOpenMar]
      + get_open_prs_count [prMerged, prOpenMar] = get_total_prs [prMerged, prOpenMar] :=
  ⟨by simp, C4_count_partition [prMerged, prOpenMar] (by simp) (by decide) (by decide)⟩

/-- Claim C5: on the empty collection every count is 0, every average and
percentage is 0, mean/median time-to-close and the feat/fix ratio are absent,
the monthly, author and repository groupings are empty, and every query is a
total function (no exception). -/
theorem C5_empty_collection :
    (get_business_insights []).productivity_metrics.avg_lines_per_pr = 0 ∧
    (get_business_insights []).estimated_cost_savings.total = 0 ∧
    get_total_prs [] = 0 ∧
    get_merged_prs_count [] = 0 ∧
    get_closed_prs_count [] = 0 ∧
    get_open_prs_count [] = 0 ∧
    get_average_time_to_close [] = none ∧
    get_median_time_to_close [] = none ∧
    get_code_change_stats [] = ⟨0, 0, 0, 0, 0, 0⟩ ∧
    (get_conventional_commits_analysis []).commit_types = [] ∧
    (get_conventional_commits_analysis []).prs_with_conventional_commits = 0 ∧
    (get_conventional_commits_analysis []).percentage_with_conventional = 0 ∧
    (get_conventional_commits_analysis []).feat_fix_ratio = none ∧
    (get_work_item_analysis []).total_github_issues = 0 ∧
    (get_work_item_analysis []).total_jira_tickets = 0 ∧
    (get_work_item_analysis []).prs_with_work_items = 0 ∧
    (get_work_item_analysis []).percentage_with_work_items = 0 ∧
    get_prs_per_month [] = [] ∧
    get_prs_by_author [] = [] ∧
    get_prs_by_repo [] = [] ∧
    get_monthly_breakdown [] = [] ∧
    (get_business_insights []).velocity_metrics.merged_rate = 0 := by
  refine ⟨?_, ?_, by decide⟩
  · show (0 : ℚ) + 0 = 0
    norm_num
  · norm_num [get_business_insights, get_conventional_commits_analysis, countsByKey,
      firstDedup, firstDedupAux, avg_hourly_rate, sortPairsByCountDesc, List.insertionSort]

/-- Claim C7: per family, `extract_work_items` returns exactly the union of
the sigil/token-form matches and the URL-form matches, deduplicated with set
semantics and sorted ascending by string order; on "Fixes #123 and #456" the
issues are exactly ["123", "456"]. -/
theorem C7_work_item_union (text : String) :
    (extract_work_items text).github_issues.Nodup ∧
    List.Sorted (· ≤ ·) (extract_work_items text).github_issues ∧
    (∀ s, s ∈ (extract_work_items text).github_issues ↔
        s ∈ findIssueRefs text ∨ s ∈ findGithubIssueURLs text) ∧
    (extract_work_items text).jira_tickets.Nodup ∧
    List.Sorted (· ≤ ·) (extract_work_items text).jira_tickets ∧
    (∀ s, s ∈ (extract_work_items text).jira_tickets ↔
        s ∈ findJiraKeys text ∨ s ∈ findJiraURLs text) ∧
    extract_work_items "Fixes #123 and #456" = ⟨["123", "456"], []⟩ :=
  ⟨nodup_sortedUnion _ _, sorted_sortedUnion _ _, fun s => mem_sortedUnion _ _ s,
   nodup_sortedUnion _ _, sorted_sortedUnion _ _, fun s => mem_sortedUnion _ _ s,
   by decide⟩

/-- Witness for `C7_work_item_union` at a concrete text. -/
theorem C7_work_item_union_witness :
    (extract_work_items "Fixes #123 and #456").github_issues.Nodup :=
  (C7_work_item_union "Fixes #123 and #456").1

/-- Claim C8: every token produced by `extract_conventional_commit_types` is
lower-cased and alias-normalized, hence lies in the fixed vocabulary; the
aliases map "hotfix" to "fix" and "doc" to "docs". -/
theorem C8_vocabulary (pr : PRRecord) (tok : String)
    (h : tok ∈ extract_conventional_commit_types pr) :
    tok ∈ canonicalCommitTypes ∧
    normalizeCommitType "hotfix" = "fix" ∧
    normalizeCommitType "doc" = "docs" := by
  obtain ⟨s, t, hmt, rfl⟩ := mem_extract_types h
  exact ⟨normalize_matched_mem hmt, by decide, by decide⟩

/-- Witness for `C8_vocabulary`: the title "hotfix: urgent" produces the
token "fix", which lies in the vocabulary. -/
theorem C8_vocabulary_witness :
    ("fix" ∈ extract_conventional_commit_types prHotfix) ∧
    "fix" ∈ canonicalCommitTypes :=
  ⟨by decide, (C8_vocabulary prHotfix "fix" (by decide)).1⟩

/-- Claim C10: the anchored match requires no colon or word boundary: any
title that merely begins (case-insensitively) with a type word contributes a
token; "testing the waters" yields exactly ["test"] and "feature branch
cleanup" yields exactly ["feat"]. -/
theorem C10_no_boundary (pr : PRRecord) (w : String) (hw : w ∈ commitTypeWords)
    (hpre : strLower (pr.title.take w.length) = w) :
    extract_conventional_commit_types pr ≠ [] ∧
    extract_conventional_commit_types prTesting = ["test"] ∧
    extract_conventional_commit_types prFeature = ["feat"] := by
  refine ⟨?_, by decide, by decide⟩
  obtain ⟨t, ht⟩ := matchWordList_isSome hw hpre
  rw [extract_conventional_commit_types]
  rw [show matchCommitType pr.title = some t from ht]
  simp

/-- Witness for `C10_no_boundary` at the title "testing the waters". -/
theorem C10_no_boundary_witness :
    ("test" ∈ commitTypeWords) ∧
    strLower (prTesting.title.take "test".length) = "test" ∧
    extract_conventional_commit_types prTesting ≠ [] :=
  ⟨by decide, by decide, (C10_no_boundary prTesting "test" (by decide) (by decide)).1⟩

/-- Claim C9: the cost-savings formulas (fix x 4h, perf x 8h, test x 2h, at
the fixed hourly rate, total = sum) and the velocity classification: "high"
when the mean time-to-close is below 48 hours, "medium" when below 168, else
"low", and "low" when the mean is undefined.  The hypothesis is the data
model's invariant that `time_to_close_hours` is non-negative; it rules out a
zero mean of a non-empty filtered list, which Python truthiness would
classify "low". -/
theorem C9_business_insights (prs : List PRRecord)
    (hpos : ∀ pr ∈ prs, ∀ t : ℚ, pr.time_to_close_hours = some t → 0 ≤ t) :
    (get_business_insights prs).estimated_cost_savings.bug_fixes
        = ((get_conventional_commits_analysis prs).fix_count : ℚ) * 4 * avg_hourly_rate ∧
    (get_business_insights prs).estimated_cost_savings.performance_improvements
        = ((((get_conventional_commits_analysis prs).commit_types.lookup "perf").getD 0 : ℕ) : ℚ)
          * 8 * avg_hourly_rate ∧
    (get_business_insights prs).estimated_cost_savings.test_additions
        = ((((get_conventional_commits_analysis prs).commit_types.lookup "test").getD 0 : ℕ) : ℚ)
          * 2 * avg_hourly_rate ∧
    (get_business_insights prs).estimated_cost_savings.total
        = (get_business_insights prs).estimated_cost_savings.bug_fixes
          + (get_business_insights prs).estimated_cost_savings.performance_improvements
          + (get_business_insights prs).estimated_cost_savings.test_additions ∧
    (get_average_time_to_close prs = none →
        (get_business_insights prs).velocity_metrics.velocity_score = "low") ∧
    (∀ a : ℚ, get_average_time_to_close prs = some a →
        (get_business_insights prs).velocity_metrics.velocity_score =
          (if a < 48 then "high" else if a < 168 then "medium" else "low")) := by
  refine ⟨rfl, rfl, rfl, rfl, ?_, ?_⟩
  · intro h
    simp [get_business_insights, truthyLt, h]
  · intro a h
    have hnil : truthyTimes prs ≠ [] := by
      intro hn
      rw [get_average_time_to_close] at h
      simp [hn] at h
    have ha : meanList (truthyTimes prs) = a := by
      rw [get_average_time_to_close] at h
      simp [hnil] at h
      exact h
    have hpos' : ∀ t ∈ truthyTimes prs, 0 < t := by
      intro t htm
      obtain ⟨pr, hpr, hsome, hne0⟩ := mem_truthyTimes htm
      exact lt_of_le_of_ne (hpos pr hpr t hsome) (Ne.symm hne0)
    have hsum : 0 < (truthyTimes prs).sum := List.sum_pos _ hpos' hnil
    have hlen : (0 : ℚ) < ((truthyTimes prs).length : ℚ) := by
      have := List.length_pos.mpr hnil
      exact_mod_cast this
    have hapos : 0 < a := by
      rw [← ha, meanList]
      exact div_pos hsum hlen
    simp only [get_business_insights, truthyLt, h]
    by_cases h48 : a < 48 <;> by_cases h168 : a < 168 <;>
      simp [h48, h168, hapos.ne']

/-- Witness for `C9_business_insights` at a one-record collection with no
close time: the mean is undefined and the velocity score is "low". -/
theorem C9_business_insights_witness :
    (∀ pr ∈ [prOpenMar], ∀ t : ℚ, pr.time_to_close_hours = some t → 0 ≤ t) ∧
    get_average_time_to_close [prOpenMar] = none ∧
    (get_business_insights [prOpenMar]).velocity_metrics.velocity_score = "low" := by
  have hpos : ∀ pr ∈ [prOpenMar], ∀ t : ℚ, pr.time_to_close_hours = some t → 0 ≤ t := by
    intro pr hpr t ht
    simp only [List.mem_singleton] at hpr
    subst hpr
    simp [prOpenMar, mkPR] at ht
  exact ⟨hpos, by decide, (C9_business_insights [prOpenMar] hpos).2.2.2.2.1 (by decide)⟩

/-- Claim C6: the monthly breakdown's keys are exactly the distinct YYYY-MM
months of the records (no duplicates, membership-equal to the records'
month keys), sorted ascending; each month's `total_prs` is the number of
records created in that month; and the per-month totals sum to the
collection's total. -/
theorem C6_monthly_breakdown (prs : List PRRecord) :
    ((get_monthly_breakdown prs).map Prod.fst).Nodup ∧
    List.Sorted (· ≤ ·) ((get_monthly_breakdown prs).map Prod.fst) ∧
    (∀ k, k ∈ (get_monthly_breakdown prs).map Prod.fst ↔ k ∈ prs.map monthKey) ∧
    (∀ k ms, (k, ms) ∈ get_monthly_breakdown prs →
        ms.total_prs = (prs.filter (fun pr => monthKey pr = k)).length) ∧
    ((get_monthly_breakdown prs).map (fun km => km.2.total_prs)).sum = get_total_prs prs := by
  have hkeys : (get_monthly_breakdown prs).map Prod.fst
      = (sortPairsAsc (groupByMonth prs)).map Prod.fst := by
    rw [get_monthly_breakdown, List.map_map]
    rfl
  have hperm : List.Perm (sortPairsAsc (groupByMonth prs)) (groupByMonth prs) :=
    List.perm_insertionSort _ _
  have hgkeys : (groupByMonth prs).map Prod.fst = firstDedup (prs.map monthKey) := by
    rw [groupByMonth, List.map_map]
    exact List.map_id' _
  have hkperm : List.Perm ((get_monthly_breakdown prs).map Prod.fst)
      (firstDedup (prs.map monthKey)) := by
    rw [hkeys, ← hgkeys]
    exact hperm.map Prod.fst
  refine ⟨?_, ?_, ?_, ?_, ?_⟩
  · exact hkperm.nodup_iff.mpr (hgkeys ▸ (hgkeys ▸ nodup_firstDedup _))
  · have hsorted : List.Sorted (fun a b => strLeKey a.1 b.1) (sortPairsAsc (groupByMonth prs)) :=
      List.sorted_insertionSort _ _
    rw [hkeys]
    exact hsorted.map Prod.fst (fun a b h => String.le_iff_toList_le.mpr h)
  · intro k
    rw [hkperm.mem_iff, mem_firstDedup]
  · intro k ms hmem
    rw [get_monthly_breakdown] at hmem
    rcases List.mem_map.mp hmem with ⟨kg, hkg, heq⟩
    have hkg' : kg ∈ groupByMonth prs := hperm.mem_iff.mp hkg
    rw [groupByMonth] at hkg'
    rcases List.mem_map.mp hkg' with ⟨k', -, hk'⟩
    rw [← hk'] at heq
    injection heq with h1 h2
    subst h1
    rw [← h2]
    rfl
  · have h1 : (get_monthly_breakdown prs).map (fun km => km.2.total_prs)
        = (sortPairsAsc (groupByMonth prs)).map (fun kg => kg.2.length) := by
      rw [get_monthly_breakdown, List.map_map]
      rfl
    have h2 : List.Perm ((sortPairsAsc (groupByMonth prs)).map (fun kg => kg.2.length))
        ((groupByMonth prs).map (fun kg => kg.2.length)) :=
      hperm.map _
    have h3 : (groupByMonth prs).map (fun kg => kg.2.length)
        = (firstDedup (prs.map monthKey)).map
            (fun k => (prs.filter (fun pr => monthKey pr = k)).length) := by
      rw [groupByMonth, List.map_map]
      rfl
    rw [h1, h2.sum_eq, h3]
    exact sum_filter_len _ prs (nodup_firstDedup _)
      (fun pr hpr => (mem_firstDedup _ _).mpr (List.mem_map_of_mem monthKey hpr))

/-- Witness for `C6_monthly_breakdown` at a concrete two-month collection. -/
theorem C6_monthly_breakdown_witness :
    ((get_monthly_breakdown [prMerged, prOpenMar]).map Prod.fst).Nodup ∧
    ("2024-01" ∈ (get_monthly_breakdown [prMerged, prOpenMar]).map Prod.fst ↔
        "2024-01" ∈ [prMerged, prOpenMar].map monthKey) ∧
    ((get_monthly_breakdown [prMerged, prOpenMar]).map (fun km => km.2.total_prs)).sum
      = get_total_prs [prMerged, prOpenMar] :=
  ⟨(C6_monthly_breakdown [prMerged, prOpenMar]).1,
   (C6_monthly_breakdown [prMerged, prOpenMar]).2.2.1 "2024-01",
   (C6_monthly_breakdown [prMerged, prOpenMar]).2.2.2.2⟩
